import Mathlib

set_option maxHeartbeats 1000000

/-!
Shallow embedding of the hammer package-build pipeline (package.go) and
theorems checking the natural-language specification against it.

Modelling conventions:
- Pure Go code becomes Lean functions; every interaction with the outside
  world (filesystem, subprocesses, resource downloads, the text/template
  engine) is an oracle supplied through an `Env` record, so each function
  is a deterministic function of the package and the oracle.
- Each side-effecting call is additionally recorded in an event trace
  (`List Event`), so that "never invokes the backend", "the workspace was
  removed", etc. are statable as properties of the trace.
- `Scripts` (scripts.go is not part of the sources at hand) is modelled
  from the spec as a finite mapping, represented as an association list;
  `Scripts.BuildSources` is an opaque oracle (`Env.buildSources`).
- A `Resource` (resource.go likewise absent) exposes a destination name;
  its `Download(p)` outcome is the oracle `Env.download`.
-/

namespace Hammer

/-- Errors surfaced by the build pipeline.  `sys` stands for an opaque error
value produced by the operating system, a resource download or the template
engine; `invalidScriptName` is `ErrInvalidScriptName` of package.go;
`nonZeroExit` is the error constructed in `Package()` when the backend
process exits with a non-zero status. -/
inductive Err where
  | sys : String → Err
  | invalidScriptName : Err
  | nonZeroExit : Err
  deriving DecidableEq

/-- One entry returned by `ioutil.ReadDir`: a file name plus whether the
entry is a directory (`os.FileInfo.IsDir`). -/
structure DirEntry where
  name : String
  isDir : Bool
  deriving DecidableEq

/-- A resource (acquisition unit).  Modelled from the spec: the Resource
interface (resource.go is not among the sources) exposes `Name()`, the
destination filename inside the build workspace; the outcome of
`Download(p)` is supplied by the environment oracle. -/
structure Resource where
  name : String
  deriving DecidableEq

/-- An install target: a `src`/`dest` pair of template strings. -/
structure Target where
  Src : String
  Dest : String
  deriving DecidableEq

/-- The Package manifest plus its transient build-time state, mirroring the
`Package` struct of package.go.  `Scripts` is the hook-name ↦ script-body
mapping, represented as an association list. -/
structure Package where
  Name : String
  Version : String
  Iteration : String
  Epoch : String
  License : String
  Vendor : String
  URL : String
  Description : String
  Depends : List String
  Resources : List Resource
  Targets : List Target
  Scripts : List (String × String)
  BuildRoot : String
  OutputRoot : String
  Root : String
  ScriptRoot : String
  deriving DecidableEq

/-- Observable side effects of one build, in execution order. -/
inductive Event where
  | download : Nat → Event
  | writeFile : String → Event
  | runBuildScript : String → Event
  | tempDir : String → Event
  | invokeBackend : List String → Event
  | remove : String → Bool → Event
  | removeAll : String → Bool → Event
  deriving DecidableEq

/-- The environment oracle: outcomes of every call that leaves the
process (filesystem, subprocesses, downloads, template engine).  Keeping
these as functions makes the embedded pipeline a deterministic function of
the package and the oracle. -/
structure Env where
  readDir : String → Except Err (List DirEntry)
  fpMatch : String → String → Bool × Option Err
  tempDirBuild : String → Except Err String
  tempDirScript : String → Except Err String
  download : Resource → Package → Except Err String
  writeFileScript : String → String → Option Err
  buildSources : String → String × Option Err
  parseTmpl : String → String → Except Err Unit
  execTmpl : String → Package → Except Err String
  runFpm : List String → String × Option Err × Bool
  remove : String → Option Err
  removeAll : String → Option Err

/-- `path.Join` for the non-empty, already-clean path components used by
the pipeline. -/
def pathJoin (a b : String) : String := a ++ "/" ++ b

/-- The conflict-detection loop of `Build()` (package.go lines 79-97):
skip directories, ask `filepath.Match`, log (and otherwise ignore) match
errors, and report whether some regular file matched. -/
def matchedIn (env : Env) (glob : String) : List DirEntry → Bool
  | [] => false
  | f :: fs =>
    if f.isDir then matchedIn env glob fs
    else if (env.fpMatch glob f.name).1 then true
    else matchedIn env glob fs

/-- The resource-staging loop of `Build()` (package.go lines 109-119):
download each resource in order, aborting on the first failure; on success
write the body into the build root.  The return value of `ioutil.WriteFile`
is discarded by the source, so the loop's outcome never depends on it; the
write is still recorded in the trace.  The counter `i` numbers resources
for the trace. -/
def downloadLoop (env : Env) (p : Package) : Nat → List Resource → List Event × Option Err
  | _, [] => ([], none)
  | i, r :: rs =>
    match env.download r p with
    | .error e => ([Event.download i], some e)
    | .ok _body =>
      let rest := downloadLoop env p (i + 1) rs
      (Event.download i :: Event.writeFile (pathJoin p.BuildRoot r.name) :: rest.1, rest.2)

/-- `Package.Render` (package.go lines 144-153): parse the input string as
a template named `p.Name + "-" + in`, then execute it against the package
itself.  Both steps stay inside the process; the result carries an (empty)
event trace and the (unchanged) package so that purity is a statable
property rather than an assumption. -/
def Package.Render (env : Env) (p : Package) (s : String) :
    Except Err String × List Event × Package :=
  match env.parseTmpl (p.Name ++ "-" ++ s) s with
  | .error e => (.error e, [], p)
  | .ok _ => (env.execTmpl s p, [], p)

/-- The whitelist test of package.go line 283, written positively
(the source negates it: `name != "before-install" && ...`). -/
def validScriptName (n : String) : Bool :=
  n == "before-install" || n == "after-install" || n == "before-remove" ||
  n == "after-remove" || n == "before-upgrade" || n == "after-upgrade"

/-- One optional metadata field of `fpmArgs` (package.go lines 214-262):
skipped entirely when empty, otherwise rendered and emitted as
`[flag, rendered]`. -/
def optionalArg (env : Env) (p : Package) (flag v : String) : Except Err (List String) :=
  if v = "" then .ok []
  else
    match (Package.Render env p v).1 with
    | .error e => .error e
    | .ok r => .ok [flag, r]

/-- The script-set loop of `fpmArgs` (package.go lines 276-304): skip the
build hook, reject names outside the whitelist, render the body, write it
into the script root (checked, unlike the resource writes) and append
`--<name> <path>`. -/
def scriptLoop (env : Env) (p : Package) (scriptDir : String) :
    List (String × String) → List String → Except Err (List String) × List Event
  | [], args => (.ok args, [])
  | (nm, value) :: rest, args =>
    if nm = "build" then scriptLoop env p scriptDir rest args
    else if validScriptName nm then
      match (Package.Render env p value).1 with
      | .error e => (.error e, [])
      | .ok content =>
        let loc := pathJoin scriptDir nm
        match env.writeFileScript loc content with
        | some e => (.error e, [Event.writeFile loc])
        | none =>
          let r := scriptLoop env p scriptDir rest (args ++ ["--" ++ nm, loc])
          (r.1, Event.writeFile loc :: r.2)
    else (.error Err.invalidScriptName, [])

/-- The target loop of `fpmArgs` (package.go lines 306-320): render source
and destination independently and append one `"src=dest"` argument. -/
def targetLoop (env : Env) (p : Package) : List Target → List String → Except Err (List String)
  | [], args => .ok args
  | t :: rest, args =>
    match (Package.Render env p t.Src).1 with
    | .error e => .error e
    | .ok src =>
      match (Package.Render env p t.Dest).1 with
      | .error e => .error e
      | .ok dest => targetLoop env p rest (args ++ [src ++ "=" ++ dest])

/-- `Package.fpmArgs` (package.go lines 186-323): mandatory name/version/
iteration, the five optional metadata fields, verbatim `--depend` entries,
the script directory plus hook scripts, then the targets.  Returns the
argument list, the event trace, and the package (whose `ScriptRoot` is set
once the script directory is created). -/
def Package.fpmArgs (env : Env) (p : Package) :
    Except Err (List String) × List Event × Package :=
  match (Package.Render env p p.Name).1 with
  | .error e => (.error e, [], p)
  | .ok nameR =>
  match (Package.Render env p p.Version).1 with
  | .error e => (.error e, [], p)
  | .ok versionR =>
  match (Package.Render env p p.Iteration).1 with
  | .error e => (.error e, [], p)
  | .ok iterR =>
  match optionalArg env p "--epoch" p.Epoch with
  | .error e => (.error e, [], p)
  | .ok epochA =>
  match optionalArg env p "--license" p.License with
  | .error e => (.error e, [], p)
  | .ok licenseA =>
  match optionalArg env p "--vendor" p.Vendor with
  | .error e => (.error e, [], p)
  | .ok vendorA =>
  match optionalArg env p "--description" p.Description with
  | .error e => (.error e, [], p)
  | .ok descriptionA =>
  match optionalArg env p "--url" p.URL with
  | .error e => (.error e, [], p)
  | .ok urlA =>
  let args := ["--name", nameR, "--version", versionR, "--iteration", iterR]
    ++ epochA ++ licenseA ++ vendorA ++ descriptionA ++ urlA
    ++ p.Depends.flatMap (fun d => ["--depend", d])
  match env.tempDirScript ("hammer-scripts-" ++ p.Name) with
  | .error e => (.error e, [], p)
  | .ok scriptDir =>
  let p2 : Package := { p with ScriptRoot := scriptDir }
  let ev0 := Event.tempDir ("hammer-scripts-" ++ p.Name)
  match scriptLoop env p2 scriptDir p2.Scripts args with
  | (.error e, tr) => (.error e, ev0 :: tr, p2)
  | (.ok args2, tr) =>
    match targetLoop env p2 p2.Targets args2 with
    | .error e => (.error e, ev0 :: tr, p2)
    | .ok args3 => (.ok args3, ev0 :: tr, p2)

/-- `Package.Package` (package.go lines 155-184): build the argument list,
prepend the fixed `-s dir -t rpm -p <output>` prefix, invoke the backend,
and turn a clean exit with non-zero status into `nonZeroExit`. -/
def Package.PackageOp (env : Env) (p : Package) :
    Except Err String × List Event × Package :=
  match Package.fpmArgs env p with
  | (.error e, tr, p2) => (.error e, tr, p2)
  | (.ok args, tr, p2) =>
    let fullArgs := ["-s", "dir", "-t", "rpm", "-p", p.OutputRoot] ++ args
    let res := env.runFpm fullArgs
    let err : Option Err :=
      match res.2.1 with
      | some e => some e
      | none => if res.2.2 then none else some Err.nonZeroExit
    match err with
    | some e => (.error e, tr ++ [Event.invokeBackend fullArgs], p2)
    | none => (.ok res.1, tr ++ [Event.invokeBackend fullArgs], p2)

/-- `Package.Cleanup` (package.go lines 55-69): `os.RemoveAll` on the build
root, returning its error without touching the script root on failure,
then `os.RemoveAll` on the script root.  Events carry the success flag. -/
def Package.Cleanup (env : Env) (p : Package) : Option Err × List Event :=
  match env.removeAll p.BuildRoot with
  | some e => (some e, [Event.removeAll p.BuildRoot false])
  | none =>
    match env.removeAll p.ScriptRoot with
    | some e => (some e, [Event.removeAll p.BuildRoot true, Event.removeAll p.ScriptRoot false])
    | none => (none, [Event.removeAll p.BuildRoot true, Event.removeAll p.ScriptRoot true])

/-- The deferred `os.Remove(buildDir)` of package.go line 101: a bare
(non-recursive) remove whose error is discarded; the trace records whether
it succeeded. -/
def deferRemove (env : Env) (d : String) : Event :=
  Event.remove d ((env.remove d).isNone)

/-- The tail of `Build()` once the build workspace exists (package.go
lines 106-142), split out of `Package.Build` as a named stage: stage the
resources, run the build script, package, and on success clean up; every
return path ends with the deferred `os.Remove(buildDir)`.  `p1` is the
package with `BuildRoot` already set. -/
def Package.buildStaged (env : Env) (p1 : Package) : Option Err × List Event × Package :=
  let bd := p1.BuildRoot
  match downloadLoop env p1 0 p1.Resources with
  | (tr, some e) => (some e, tr ++ [deferRemove env bd], p1)
  | (tr, none) =>
    match (env.buildSources bd).2 with
    | some e => (some e, tr ++ [Event.runBuildScript bd, deferRemove env bd], p1)
    | none =>
      match Package.PackageOp env p1 with
      | (.error e, tr2, p2) =>
        (some e, tr ++ [Event.runBuildScript bd] ++ tr2 ++ [deferRemove env bd], p2)
      | (.ok _out, tr2, p2) =>
        let c := Package.Cleanup env p2
        (c.1, tr ++ [Event.runBuildScript bd] ++ tr2 ++ c.2 ++ [deferRemove env bd], p2)

/-- `Package.Build` (package.go lines 71-142): conflict check against the
output directory, workspace creation, then `buildStaged`.  The extra
argument `_resourceWriteResult` is the outcome oracle for the
`ioutil.WriteFile` calls of the resource-staging loop; the source discards
that call's return value (package.go lines 114-118), so the definition
never consults it — which is exactly the behaviour under test in the
write-error claim.  Returns the error result, the event trace, and the
final package state. -/
def Package.Build (env : Env)
    (_resourceWriteResult : String → String → Option Err) (p : Package) :
    Option Err × List Event × Package :=
  let nameGlob := p.Name ++ "-" ++ p.Version ++ "-" ++ p.Iteration ++ ".*"
  match env.readDir p.OutputRoot with
  | .error e => (some e, [], p)
  | .ok files =>
    if matchedIn env nameGlob files then (none, [], p)
    else
      match env.tempDirBuild ("hammer-" ++ p.Name) with
      | .error e => (some e, [deferRemove env ""], p)
      | .ok buildDir =>
        let r := Package.buildStaged env { p with BuildRoot := buildDir }
        (r.1, Event.tempDir ("hammer-" ++ p.Name) :: r.2.1, r.2.2)

/-- A path counts as removed when the trace holds a successful
`os.RemoveAll` or `os.Remove` of it. -/
def removedIn (tr : List Event) (d : String) : Bool :=
  tr.any fun ev => ev == Event.removeAll d true || ev == Event.remove d true

/-- Closed form of the events of the resource-staging loop when the first
`k` downloads succeed: for each staged resource one download and one write
into the build root. -/
def dlTrace (p : Package) : Nat → List Resource → List Event
  | _, [] => []
  | i, r :: rest =>
    Event.download i :: Event.writeFile (pathJoin p.BuildRoot r.name) :: dlTrace p (i + 1) rest

/-- Closed form of the arguments contributed by the script loop: nothing
for the build hook, `--<name> <path>` for each remaining hook. -/
def scriptArgsSpec (sd : String) (scripts : List (String × String)) : List String :=
  scripts.flatMap fun e => if e.1 = "build" then [] else ["--" ++ e.1, pathJoin sd e.1]

/-- Closed form of the events of the script loop: one write per non-build
hook. -/
def scriptEventsSpec (sd : String) (scripts : List (String × String)) : List Event :=
  scripts.flatMap fun e => if e.1 = "build" then [] else [Event.writeFile (pathJoin sd e.1)]

/-- Closed form of the arguments contributed by the target loop. -/
def targetArgsSpec (ev : String → Package → String) (q : Package) (ts : List Target) :
    List String :=
  ts.map fun t => ev t.Src q ++ "=" ++ ev t.Dest q

/-- A well-behaved template engine: parsing always succeeds and execution
renders `s` against package `q` as `ev s q`. -/
structure RendersAs (env : Env) (ev : String → Package → String) : Prop where
  parse : env.parseTmpl = fun _ _ => Except.ok ()
  exec : env.execTmpl = fun s q => Except.ok (ev s q)

/-! Concrete fixtures used by witnesses and counterexamples: an
environment where every external call succeeds, variations of it with one
failing call each, and small concrete packages. -/

/-- Environment where every external call succeeds; templates render to
their own source text. -/
def envOk : Env :=
  { readDir := fun _ => .ok []
    fpMatch := fun _ _ => (false, none)
    tempDirBuild := fun _ => .ok "/tmp/build"
    tempDirScript := fun _ => .ok "/tmp/scripts"
    download := fun _ _ => .ok "data"
    writeFileScript := fun _ _ => none
    buildSources := fun _ => ("", none)
    parseTmpl := fun _ _ => .ok ()
    execTmpl := fun s _ => .ok s
    runFpm := fun _ => ("", none, true)
    remove := fun _ => none
    removeAll := fun _ => none }

/-- Resource-write oracle where every write succeeds. -/
def wNone : String → String → Option Err := fun _ _ => none

/-- Resource-write oracle where every write fails. -/
def wFail : String → String → Option Err := fun _ _ => some (Err.sys "write failed")

/-- A minimal package manifest: build hook only, no resources, no
targets. -/
def pkg0 : Package :=
  { Name := "foo", Version := "1.0", Iteration := "1", Epoch := "", License := ""
    Vendor := "", URL := "", Description := "", Depends := [], Resources := []
    Targets := [], Scripts := [("build", "make")], BuildRoot := ""
    OutputRoot := "/out", Root := "", ScriptRoot := "" }

/-- Environment whose output directory already holds a matching regular
file. -/
def envArtifact : Env :=
  { envOk with
    readDir := fun _ => .ok [{ name := "foo-1.0-1.rpm", isDir := false }]
    fpMatch := fun _ nm => (nm == "foo-1.0-1.rpm", none) }

/-- Environment whose output directory cannot be listed. -/
def envReadErr : Env :=
  { envOk with readDir := fun _ => .error (Err.sys "permission denied") }

/-- Environment whose output directory holds only a directory whose name
matches every glob. -/
def envDirOnly : Env :=
  { envOk with
    readDir := fun _ => .ok [{ name := "foo-1.0-1.rpm", isDir := true }]
    fpMatch := fun _ _ => (true, none) }

/-- Environment where the packaging backend exits with a non-zero
status. -/
def envFpmFail : Env := { envOk with runFpm := fun _ => ("", none, false) }

/-- Environment where `os.RemoveAll` always fails. -/
def envRmFail : Env := { envOk with removeAll := fun _ => some (Err.sys "rm failed") }

/-- Environment where every resource download fails. -/
def envDlFail : Env := { envOk with download := fun _ _ => .error (Err.sys "download failed") }

/-- `pkg0` with one resource. -/
def pkgRes : Package := { pkg0 with Resources := [{ name := "src.tar" }] }

/-- `pkg0` with two resources. -/
def pkgTwoRes : Package := { pkg0 with Resources := [{ name := "a" }, { name := "b" }] }

/-- `pkg0` with a hook name outside the whitelist. -/
def pkgBadScript : Package :=
  { pkg0 with Scripts := [("build", "make"), ("bogus", "echo x")] }

/-- `pkg0` with some optional metadata present, some absent, and two
dependencies. -/
def pkgMeta : Package :=
  { pkg0 with License := "MIT", Vendor := "acme", Depends := ["libfoo > 1.0", "libbar"] }

/-! Helper lemmas about the conflict-detection loop. -/

lemma matchedIn_true_of_mem (env : Env) (glob : String) {files : List DirEntry} {f : DirEntry}
    (hf : f ∈ files) (hdir : f.isDir = false) (hm : (env.fpMatch glob f.name).1 = true) :
    matchedIn env glob files = true := by
  induction files with
  | nil => cases hf
  | cons g gs ih =>
    rcases List.mem_cons.mp hf with rfl | hf'
    · simp [matchedIn, hdir, hm]
    · unfold matchedIn
      by_cases hg : g.isDir = true
      · simp [hg, ih hf']
      · by_cases hgm : (env.fpMatch glob g.name).1 = true
        · simp [hg, hgm]
        · simp [hg, hgm, ih hf']

lemma matchedIn_false_of (env : Env) (glob : String) {files : List DirEntry}
    (h : ∀ f ∈ files, f.isDir = false → (env.fpMatch glob f.name).1 = false) :
    matchedIn env glob files = false := by
  induction files with
  | nil => rfl
  | cons g gs ih =>
    unfold matchedIn
    by_cases hg : g.isDir = true
    · simpa [hg] using ih fun f hf => h f (List.mem_cons_of_mem g hf)
    · have hgm := h g (List.mem_cons_self g gs) (by simpa using hg)
      simpa [hg, hgm] using ih fun f hf => h f (List.mem_cons_of_mem g hf)

/-- Once the output listing succeeds without a conflicting regular file and
the build workspace is created, `Build()` behaves as `buildStaged` plus the
leading workspace-creation event. -/
lemma build_past_conflict (env : Env) (w : String → String → Option Err) (p : Package)
    (files : List DirEntry) (bd : String)
    (h1 : env.readDir p.OutputRoot = .ok files)
    (h2 : matchedIn env (p.Name ++ "-" ++ p.Version ++ "-" ++ p.Iteration ++ ".*") files = false)
    (h3 : env.tempDirBuild ("hammer-" ++ p.Name) = .ok bd) :
    Package.Build env w p =
      ((Package.buildStaged env { p with BuildRoot := bd }).1,
        Event.tempDir ("hammer-" ++ p.Name)
          :: (Package.buildStaged env { p with BuildRoot := bd }).2.1,
        (Package.buildStaged env { p with BuildRoot := bd }).2.2) := by
  unfold Package.Build
  rw [h1]
  simp only [h2, Bool.false_eq_true, if_false, h3]

/-- C1: if the output directory holds a regular file matching the
unrendered glob `name-version-iteration.*`, `Build()` returns success with
an empty effect trace (no download, no build script, no backend call, no
workspace creation); and if listing the output directory fails, `Build()`
returns that listing error. -/
theorem build_skips_when_artifact_exists (env : Env) (w : String → String → Option Err)
    (p : Package) :
    (∀ files, env.readDir p.OutputRoot = .ok files →
        (∃ f ∈ files, f.isDir = false ∧
          (env.fpMatch (p.Name ++ "-" ++ p.Version ++ "-" ++ p.Iteration ++ ".*") f.name).1
            = true) →
        Package.Build env w p = (none, [], p)) ∧
    (∀ e, env.readDir p.OutputRoot = .error e →
        Package.Build env w p = (some e, [], p)) := by
  constructor
  · rintro files h1 ⟨f, hf, hdir, hm⟩
    unfold Package.Build
    rw [h1]
    simp [matchedIn_true_of_mem env _ hf hdir hm]
  · intro e h1
    unfold Package.Build
    rw [h1]

/-- Witness for C1 at concrete inputs: an existing `foo-1.0-1.rpm` regular
file makes the build a successful no-op, and an unreadable output
directory surfaces the listing error. -/
theorem build_skips_when_artifact_exists_witness :
    Package.Build envArtifact wNone pkg0 = (none, [], pkg0) ∧
    Package.Build envReadErr wNone pkg0 = (some (Err.sys "permission denied"), [], pkg0) :=
  ⟨(build_skips_when_artifact_exists envArtifact wNone pkg0).1 _ rfl
      ⟨{ name := "foo-1.0-1.rpm", isDir := false }, by decide, rfl, by decide⟩,
    (build_skips_when_artifact_exists envReadErr wNone pkg0).2 _ rfl⟩

/-- C6: `Render` is pure and deterministic — it produces no filesystem
events, returns the package unchanged, and rendering the same string again
against the returned package yields the same output. -/
theorem render_pure_and_deterministic (env : Env) (p : Package) (s : String) :
    (Package.Render env p s).2.1 = [] ∧
    (Package.Render env p s).2.2 = p ∧
    (Package.Render env ((Package.Render env p s).2.2) s).1 = (Package.Render env p s).1 := by
  rcases h : env.parseTmpl (p.Name ++ "-" ++ s) s with e | u <;>
    simp [Package.Render, h]

/-- C10: a directory entry in the output directory, even one whose name
matches the glob, does not trigger the skip: when no regular file matches,
the build proceeds to workspace creation. -/
theorem build_conflict_check_ignores_directories (env : Env)
    (w : String → String → Option Err) (p : Package) (files : List DirEntry) (bd : String)
    (h1 : env.readDir p.OutputRoot = .ok files)
    (hdir : ∃ f ∈ files, f.isDir = true ∧
      (env.fpMatch (p.Name ++ "-" ++ p.Version ++ "-" ++ p.Iteration ++ ".*") f.name).1 = true)
    (hnd : ∀ f ∈ files, f.isDir = false →
      (env.fpMatch (p.Name ++ "-" ++ p.Version ++ "-" ++ p.Iteration ++ ".*") f.name).1 = false)
    (h3 : env.tempDirBuild ("hammer-" ++ p.Name) = .ok bd) :
    ∃ rest, (Package.Build env w p).2.1
      = Event.tempDir ("hammer-" ++ p.Name) :: rest := by
  rw [build_past_conflict env w p files bd h1 (matchedIn_false_of env _ hnd) h3]
  exact ⟨_, rfl⟩

/-- Witness for C10: a directory named `foo-1.0-1.rpm` (matched by the
glob) does not cause the skip; the build creates its workspace. -/
theorem build_conflict_check_ignores_directories_witness :
    ∃ rest, (Package.Build envDirOnly wNone pkg0).2.1
      = Event.tempDir ("hammer-" ++ pkg0.Name) :: rest :=
  build_conflict_check_ignores_directories envDirOnly wNone pkg0
    [{ name := "foo-1.0-1.rpm", isDir := true }] "/tmp/build" rfl
    ⟨{ name := "foo-1.0-1.rpm", isDir := true }, by decide, rfl, rfl⟩
    (by decide) rfl

/-! Helper lemmas about rendering and the `fpmArgs` loops under a
well-behaved environment. -/

lemma render_ok {env : Env} {ev : String → Package → String} (h : RendersAs env ev)
    (p : Package) (s : String) :
    Package.Render env p s = (.ok (ev s p), [], p) := by
  simp [Package.Render, h.parse, h.exec]

lemma optionalArg_ok {env : Env} {ev : String → Package → String} (h : RendersAs env ev)
    (p : Package) (flag v : String) :
    optionalArg env p flag v = .ok (if v = "" then [] else [flag, ev v p]) := by
  by_cases hv : v = "" <;> simp [optionalArg, hv, render_ok h]

lemma scriptLoop_ok {env : Env} {ev : String → Package → String} (h : RendersAs env ev)
    (hw : env.writeFileScript = fun _ _ => none) (p : Package) (sd : String) :
    ∀ (scripts : List (String × String)),
      (∀ e ∈ scripts, e.1 = "build" ∨ validScriptName e.1 = true) →
      ∀ (args : List String),
        scriptLoop env p sd scripts args =
          (.ok (args ++ scriptArgsSpec sd scripts), scriptEventsSpec sd scripts) := by
  intro scripts
  induction scripts with
  | nil => intro _ args; simp [scriptLoop, scriptArgsSpec, scriptEventsSpec]
  | cons e rest ih =>
    intro hv args
    obtain ⟨nm, value⟩ := e
    have ihr := ih fun x hx => hv x (List.mem_cons_of_mem _ hx)
    by_cases hb : nm = "build"
    · simp [scriptLoop, hb, scriptArgsSpec, scriptEventsSpec, ihr args,
        List.flatMap_cons]
    · have hvn : validScriptName nm = true := by
        rcases hv (nm, value) (List.mem_cons_self _ _) with h1 | h1
        · exact absurd h1 hb
        · exact h1
      simp [scriptLoop, hb, hvn, render_ok h, hw, scriptArgsSpec, scriptEventsSpec,
        ihr (args ++ ["--" ++ nm, pathJoin sd nm]), List.flatMap_cons, List.append_assoc]

lemma targetLoop_ok {env : Env} {ev : String → Package → String} (h : RendersAs env ev)
    (p : Package) :
    ∀ (ts : List Target) (args : List String),
      targetLoop env p ts args = .ok (args ++ targetArgsSpec ev p ts) := by
  intro ts
  induction ts with
  | nil => intro args; simp [targetLoop, targetArgsSpec]
  | cons t rest ih =>
    intro args
    simp [targetLoop, render_ok h, targetArgsSpec, ih, List.append_assoc]

/-- When the script set holds a hook name outside the whitelist (other
than the build hook), the script loop fails with `ErrInvalidScriptName`,
after only script-write events. -/
lemma scriptLoop_invalid {env : Env} {ev : String → Package → String} (h : RendersAs env ev)
    (hw : env.writeFileScript = fun _ _ => none) (p : Package) (sd : String) :
    ∀ (scripts : List (String × String)),
      (∃ e ∈ scripts, e.1 ≠ "build" ∧ validScriptName e.1 = false) →
      ∃ tr, (∀ args, scriptLoop env p sd scripts args = (.error Err.invalidScriptName, tr)) ∧
        ∀ x ∈ tr, ∃ s, x = Event.writeFile s := by
  intro scripts
  induction scripts with
  | nil => rintro ⟨e, he, _⟩; cases he
  | cons hd rest ih =>
    rintro ⟨e, he, hne, hinv⟩
    obtain ⟨nm, value⟩ := hd
    by_cases hb : nm = "build"
    · have hrest : e ∈ rest := by
        rcases List.mem_cons.mp he with rfl | h'
        · exact absurd hb hne
        · exact h'
      obtain ⟨tr, htr, hall⟩ := ih ⟨e, hrest, hne, hinv⟩
      exact ⟨tr, fun args => by simp [scriptLoop, hb, htr], hall⟩
    · by_cases hv : validScriptName nm = true
      · have hrest : e ∈ rest := by
          rcases List.mem_cons.mp he with rfl | h'
          · exact absurd hv (by simpa using hinv)
          · exact h'
        obtain ⟨tr, htr, hall⟩ := ih ⟨e, hrest, hne, hinv⟩
        refine ⟨Event.writeFile (pathJoin sd nm) :: tr, fun args => ?_, ?_⟩
        · simp [scriptLoop, hb, hv, render_ok h, hw, htr]
        · rintro x hx
          rcases List.mem_cons.mp hx with rfl | hx'
          · exact ⟨_, rfl⟩
          · exact hall x hx'
      · refine ⟨[], fun args => ?_, by simp⟩
        simp [scriptLoop, hb, hv]

/-- Closed form of `fpmArgs` when templates render, the script directory
is created, every write succeeds, and every hook name is the build hook or
a whitelisted one. -/
lemma fpmArgs_ok {env : Env} {ev : String → Package → String} (h : RendersAs env ev)
    (hw : env.writeFileScript = fun _ _ => none) (p : Package) (sd : String)
    (htd : env.tempDirScript ("hammer-scripts-" ++ p.Name) = .ok sd)
    (hvalid : ∀ e ∈ p.Scripts, e.1 = "build" ∨ validScriptName e.1 = true) :
    Package.fpmArgs env p =
      (.ok (["--name", ev p.Name p, "--version", ev p.Version p,
            "--iteration", ev p.Iteration p]
          ++ (if p.Epoch = "" then [] else ["--epoch", ev p.Epoch p])
          ++ (if p.License = "" then [] else ["--license", ev p.License p])
          ++ (if p.Vendor = "" then [] else ["--vendor", ev p.Vendor p])
          ++ (if p.Description = "" then [] else ["--description", ev p.Description p])
          ++ (if p.URL = "" then [] else ["--url", ev p.URL p])
          ++ p.Depends.flatMap (fun d => ["--depend", d])
          ++ scriptArgsSpec sd p.Scripts
          ++ targetArgsSpec ev { p with ScriptRoot := sd } p.Targets),
        Event.tempDir ("hammer-scripts-" ++ p.Name) :: scriptEventsSpec sd p.Scripts,
        { p with ScriptRoot := sd }) := by
  unfold Package.fpmArgs
  simp only [render_ok h, optionalArg_ok h, htd]
  simp only [scriptLoop_ok h hw _ sd p.Scripts hvalid, targetLoop_ok h]

/-- C3: a hook name outside the whitelist makes `Package()` fail with
`ErrInvalidScriptName`, and the backend subprocess is never invoked (the
trace holds no backend event). -/
theorem package_rejects_invalid_script_name (env : Env) (ev : String → Package → String)
    (p : Package) (sd : String)
    (h : RendersAs env ev) (hw : env.writeFileScript = fun _ _ => none)
    (htd : env.tempDirScript ("hammer-scripts-" ++ p.Name) = .ok sd)
    (hbad : ∃ e ∈ p.Scripts, e.1 ≠ "build" ∧ validScriptName e.1 = false) :
    (Package.PackageOp env p).1 = .error Err.invalidScriptName ∧
    ∀ a, Event.invokeBackend a ∉ (Package.PackageOp env p).2.1 := by
  obtain ⟨tr, htr, hall⟩ :=
    scriptLoop_invalid h hw { p with ScriptRoot := sd } sd p.Scripts hbad
  have hfpm : Package.fpmArgs env p =
      (.error Err.invalidScriptName,
        Event.tempDir ("hammer-scripts-" ++ p.Name) :: tr,
        { p with ScriptRoot := sd }) := by
    unfold Package.fpmArgs
    simp only [render_ok h, optionalArg_ok h, htd]
    simp [htr]
  constructor
  · simp [Package.PackageOp, hfpm]
  · intro a ha
    rw [Package.PackageOp, hfpm] at ha
    simp only at ha
    rcases List.mem_cons.mp ha with hx | hx
    · cases hx
    · obtain ⟨s, hs⟩ := hall _ hx
      cases hs

/-- Witness for C3: the hook name `bogus` produces the invalid-script-name
error and no backend invocation. -/
theorem package_rejects_invalid_script_name_witness :
    (Package.PackageOp envOk pkgBadScript).1 = .error Err.invalidScriptName ∧
    ∀ a, Event.invokeBackend a ∉ (Package.PackageOp envOk pkgBadScript).2.1 :=
  package_rejects_invalid_script_name envOk (fun s _ => s) pkgBadScript "/tmp/scripts"
    ⟨rfl, rfl⟩ rfl rfl ⟨("bogus", "echo x"), by decide, by decide, by decide⟩

/-- C7: each of epoch, license, vendor, description and url contributes
`--flag <rendered>` exactly when the manifest field is non-empty; an empty
field contributes nothing at all. -/
theorem fpm_optional_metadata_iff_nonempty (env : Env) (ev : String → Package → String)
    (p : Package) (sd : String)
    (h : RendersAs env ev) (hw : env.writeFileScript = fun _ _ => none)
    (htd : env.tempDirScript ("hammer-scripts-" ++ p.Name) = .ok sd)
    (hvalid : ∀ e ∈ p.Scripts, e.1 = "build" ∨ validScriptName e.1 = true) :
    ∃ rest, (Package.fpmArgs env p).1 =
      .ok (["--name", ev p.Name p, "--version", ev p.Version p,
            "--iteration", ev p.Iteration p]
        ++ (if p.Epoch = "" then [] else ["--epoch", ev p.Epoch p])
        ++ (if p.License = "" then [] else ["--license", ev p.License p])
        ++ (if p.Vendor = "" then [] else ["--vendor", ev p.Vendor p])
        ++ (if p.Description = "" then [] else ["--description", ev p.Description p])
        ++ (if p.URL = "" then [] else ["--url", ev p.URL p])
        ++ rest) := by
  refine ⟨p.Depends.flatMap (fun d => ["--depend", d]) ++ scriptArgsSpec sd p.Scripts
    ++ targetArgsSpec ev { p with ScriptRoot := sd } p.Targets, ?_⟩
  rw [fpmArgs_ok h hw p sd htd hvalid]
  simp [List.append_assoc]

/-- Witness for C7: with license and vendor set and epoch, description and
url empty, exactly the two present fields appear, rendered. -/
theorem fpm_optional_metadata_iff_nonempty_witness :
    ∃ rest, (Package.fpmArgs envOk pkgMeta).1 =
      .ok (["--name", "foo", "--version", "1.0", "--iteration", "1"]
        ++ [] ++ ["--license", "MIT"] ++ ["--vendor", "acme"] ++ [] ++ [] ++ rest) :=
  fpm_optional_metadata_iff_nonempty envOk (fun s _ => s) pkgMeta "/tmp/scripts"
    ⟨rfl, rfl⟩ rfl rfl (by decide)

/-- C8: the `--depend` block reproduces the manifest `depends` entries
verbatim (no rendering), in manifest order, directly after the metadata
block. -/
theorem fpm_depends_verbatim_in_order (env : Env) (ev : String → Package → String)
    (p : Package) (sd : String)
    (h : RendersAs env ev) (hw : env.writeFileScript = fun _ _ => none)
    (htd : env.tempDirScript ("hammer-scripts-" ++ p.Name) = .ok sd)
    (hvalid : ∀ e ∈ p.Scripts, e.1 = "build" ∨ validScriptName e.1 = true) :
    ∃ rest, (Package.fpmArgs env p).1 =
      .ok (["--name", ev p.Name p, "--version", ev p.Version p,
            "--iteration", ev p.Iteration p]
        ++ (if p.Epoch = "" then [] else ["--epoch", ev p.Epoch p])
        ++ (if p.License = "" then [] else ["--license", ev p.License p])
        ++ (if p.Vendor = "" then [] else ["--vendor", ev p.Vendor p])
        ++ (if p.Description = "" then [] else ["--description", ev p.Description p])
        ++ (if p.URL = "" then [] else ["--url", ev p.URL p])
        ++ p.Depends.flatMap (fun d => ["--depend", d])
        ++ rest) := by
  refine ⟨scriptArgsSpec sd p.Scripts
    ++ targetArgsSpec ev { p with ScriptRoot := sd } p.Targets, ?_⟩
  rw [fpmArgs_ok h hw p sd htd hvalid]
  simp [List.append_assoc]

/-- Witness for C8: the two dependencies appear untouched and in order. -/
theorem fpm_depends_verbatim_in_order_witness :
    ∃ rest, (Package.fpmArgs envOk pkgMeta).1 =
      .ok (["--name", "foo", "--version", "1.0", "--iteration", "1"]
        ++ [] ++ ["--license", "MIT"] ++ ["--vendor", "acme"] ++ [] ++ []
        ++ ["--depend", "libfoo > 1.0", "--depend", "libbar"] ++ rest) :=
  fpm_depends_verbatim_in_order envOk (fun s _ => s) pkgMeta "/tmp/scripts"
    ⟨rfl, rfl⟩ rfl rfl (by decide)

/-! Helper lemmas about the resource-staging loop and `buildStaged`. -/

lemma withBuildRoot_Resources (p : Package) (bd : String) :
    ({ p with BuildRoot := bd } : Package).Resources = p.Resources := rfl

lemma withBuildRoot_BuildRoot (p : Package) (bd : String) :
    ({ p with BuildRoot := bd } : Package).BuildRoot = bd := rfl

/-- Closed form of the staging loop when the downloads of `pre` succeed
and the next resource fails: the staged prefix is recorded, the failing
download is recorded, and the loop stops with that error. -/
lemma downloadLoop_fail (env : Env) (p : Package) (e : Err) (rFail : Resource) :
    ∀ (pre : List Resource) (post : List Resource) (i : Nat),
      (∀ r_ ∈ pre, ∃ b, env.download r_ p = .ok b) →
      env.download rFail p = .error e →
      downloadLoop env p i (pre ++ rFail :: post) =
        (dlTrace p i pre ++ [Event.download (i + pre.length)], some e) := by
  intro pre
  induction pre with
  | nil =>
    intro post i _ hfail
    simp [downloadLoop, hfail, dlTrace]
  | cons r rest ih =>
    intro post i hpre hfail
    obtain ⟨b, hok⟩ := hpre r (List.mem_cons_self _ _)
    have harith : i + 1 + rest.length = i + (rest.length + 1) := by omega
    simp only [List.cons_append, downloadLoop, hok, List.append_eq]
    rw [ih post (i + 1) (fun x hx => hpre x (List.mem_cons_of_mem _ hx)) hfail]
    simp [dlTrace, harith]

/-- Every event of the staged prefix is a download of an index below the
prefix length, or a file write. -/
lemma dlTrace_mem (p : Package) :
    ∀ (rs : List Resource) (i : Nat) (x : Event), x ∈ dlTrace p i rs →
      (∃ j, j < rs.length ∧ x = Event.download (i + j)) ∨ ∃ s, x = Event.writeFile s := by
  intro rs
  induction rs with
  | nil => intro i x hx; cases hx
  | cons r rest ih =>
    intro i x hx
    rcases List.mem_cons.mp hx with rfl | hx'
    · exact .inl ⟨0, by simp, by simp⟩
    · rcases List.mem_cons.mp hx' with rfl | hx''
      · exact .inr ⟨_, rfl⟩
      · rcases ih (i + 1) x hx'' with ⟨j, hj, rfl⟩ | hw_
        · exact .inl ⟨j + 1, by simp; omega, by rw [show i + (j + 1) = i + 1 + j from by omega]⟩
        · exact .inr hw_

/-- Any event of the trace produced by a failing staging loop (workspace
creation, staged prefix, failing download, deferred remove) is a temp-dir
event, a download at an index at most `k + pre.length`, a file write, or a
remove. -/
lemma mem_failTrace {p : Package} {pre : List Resource} {g bd : String} {env : Env}
    {x : Event} (k : Nat)
    (hx : x ∈ Event.tempDir g
      :: ((dlTrace p k pre ++ [Event.download (k + pre.length)]) ++ [deferRemove env bd])) :
    (∃ s, x = Event.tempDir s) ∨ (∃ j, j ≤ k + pre.length ∧ x = Event.download j) ∨
    (∃ s, x = Event.writeFile s) ∨ ∃ s b2, x = Event.remove s b2 := by
  rcases List.mem_cons.mp hx with rfl | hx'
  · exact .inl ⟨g, rfl⟩
  · rcases List.mem_append.mp hx' with hx1 | hx1
    · rcases List.mem_append.mp hx1 with hx2 | hx2
      · rcases dlTrace_mem p pre k x hx2 with ⟨j, hj, rfl⟩ | ⟨s, rfl⟩
        · exact .inr (.inl ⟨k + j, by omega, rfl⟩)
        · exact .inr (.inr (.inl ⟨s, rfl⟩))
      · rw [List.mem_singleton.mp hx2]
        exact .inr (.inl ⟨k + pre.length, le_refl _, rfl⟩)
    · rw [List.mem_singleton.mp hx1]
      exact .inr (.inr (.inr ⟨bd, _, rfl⟩))

/-- C4: when the download of resource `k` (here: the resource after the
successfully downloaded prefix `pre`) fails, `Build()` returns that error;
no download event beyond index `k` occurs, the build script never runs,
and the backend is never invoked. -/
theorem build_download_failure_short_circuits (env : Env)
    (w : String → String → Option Err) (p : Package) (files : List DirEntry) (bd : String)
    (e : Err) (rFail : Resource) (pre post : List Resource)
    (h1 : env.readDir p.OutputRoot = .ok files)
    (h2 : matchedIn env (p.Name ++ "-" ++ p.Version ++ "-" ++ p.Iteration ++ ".*") files = false)
    (h3 : env.tempDirBuild ("hammer-" ++ p.Name) = .ok bd)
    (hres : p.Resources = pre ++ rFail :: post)
    (hpre : ∀ r_ ∈ pre, ∃ b, env.download r_ { p with BuildRoot := bd } = .ok b)
    (hfail : env.download rFail { p with BuildRoot := bd } = .error e) :
    (Package.Build env w p).1 = some e ∧
    (∀ j, Event.download j ∈ (Package.Build env w p).2.1 → j ≤ pre.length) ∧
    (∀ d, Event.runBuildScript d ∉ (Package.Build env w p).2.1) ∧
    (∀ a, Event.invokeBackend a ∉ (Package.Build env w p).2.1) := by
  rw [build_past_conflict env w p files bd h1 h2 h3]
  have hdl := downloadLoop_fail env { p with BuildRoot := bd } e rFail pre post 0 hpre hfail
  rw [← hres] at hdl
  have hst : Package.buildStaged env { p with BuildRoot := bd } =
      (some e,
        (dlTrace { p with BuildRoot := bd } 0 pre ++ [Event.download (0 + pre.length)])
          ++ [deferRemove env bd],
        { p with BuildRoot := bd }) := by
    simp only [Package.buildStaged, withBuildRoot_Resources, withBuildRoot_BuildRoot, hdl]
  rw [hst]
  refine ⟨rfl, ?_, ?_, ?_⟩
  · intro j hj
    rcases mem_failTrace 0 hj with ⟨s, hEq⟩ | ⟨j', hj', hEq⟩ | ⟨s, hEq⟩ | ⟨s, b2, hEq⟩
    · exact absurd hEq (by simp)
    · injection hEq with h
      omega
    · exact absurd hEq (by simp)
    · exact absurd hEq (by simp)
  · intro d hd
    rcases mem_failTrace 0 hd with ⟨s, hEq⟩ | ⟨j', hj', hEq⟩ | ⟨s, hEq⟩ | ⟨s, b2, hEq⟩ <;>
      exact absurd hEq (by simp)
  · intro a ha
    rcases mem_failTrace 0 ha with ⟨s, hEq⟩ | ⟨j', hj', hEq⟩ | ⟨s, hEq⟩ | ⟨s, b2, hEq⟩ <;>
      exact absurd hEq (by simp)

/-- Witness for C4: with a package of two resources whose first download
fails, the build returns the download error, downloads nothing past index
0, and never runs the build script or the backend. -/
theorem build_download_failure_short_circuits_witness :
    (Package.Build envDlFail wNone pkgTwoRes).1 = some (Err.sys "download failed") ∧
    (∀ j, Event.download j ∈ (Package.Build envDlFail wNone pkgTwoRes).2.1 → j ≤ 0) ∧
    (∀ d, Event.runBuildScript d ∉ (Package.Build envDlFail wNone pkgTwoRes).2.1) ∧
    (∀ a, Event.invokeBackend a ∉ (Package.Build envDlFail wNone pkgTwoRes).2.1) :=
  build_download_failure_short_circuits envDlFail wNone pkgTwoRes [] "/tmp/build"
    (Err.sys "download failed") { name := "a" } [] [{ name := "b" }]
    rfl rfl rfl rfl (fun r_ hr => absurd hr (List.not_mem_nil r_)) rfl

/-- `buildStaged` once every download has succeeded: run the build script,
package, and clean up, with the staging trace `tr` in front. -/
lemma buildStaged_downloads_ok (env : Env) (p1 : Package) (tr : List Event)
    (hdl : downloadLoop env p1 0 p1.Resources = (tr, none)) :
    Package.buildStaged env p1 =
      match (env.buildSources p1.BuildRoot).2 with
      | some e =>
        (some e, tr ++ [Event.runBuildScript p1.BuildRoot, deferRemove env p1.BuildRoot], p1)
      | none =>
        match Package.PackageOp env p1 with
        | (.error e, tr2, p2) =>
          (some e,
            tr ++ [Event.runBuildScript p1.BuildRoot] ++ tr2 ++ [deferRemove env p1.BuildRoot],
            p2)
        | (.ok _o, tr2, p2) =>
          let c := Package.Cleanup env p2
          (c.1,
            tr ++ [Event.runBuildScript p1.BuildRoot] ++ tr2 ++ c.2
              ++ [deferRemove env p1.BuildRoot],
            p2) := by
  unfold Package.buildStaged
  rw [hdl]

/-- C9: `Build()` never consults the outcome of the resource-staging
`ioutil.WriteFile` calls — its entire result (error, trace and final
state) is the same under any write-outcome oracle — and when the
downloads succeed it proceeds to the build-script step regardless. -/
theorem build_ignores_resource_write_errors (env : Env)
    (w w' : String → String → Option Err) (p : Package) (files : List DirEntry) (bd : String)
    (h1 : env.readDir p.OutputRoot = .ok files)
    (h2 : matchedIn env (p.Name ++ "-" ++ p.Version ++ "-" ++ p.Iteration ++ ".*") files = false)
    (h3 : env.tempDirBuild ("hammer-" ++ p.Name) = .ok bd)
    (h4 : (downloadLoop env { p with BuildRoot := bd } 0 p.Resources).2 = none) :
    Package.Build env w p = Package.Build env w' p ∧
    Event.runBuildScript bd ∈ (Package.Build env w p).2.1 := by
  refine ⟨rfl, ?_⟩
  rw [build_past_conflict env w p files bd h1 h2 h3]
  rcases hdl : downloadLoop env { p with BuildRoot := bd } 0 p.Resources with ⟨tr, res⟩
  rw [hdl] at h4
  simp only at h4
  subst h4
  rw [buildStaged_downloads_ok env { p with BuildRoot := bd } tr hdl]
  rw [withBuildRoot_BuildRoot]
  rcases hbs : (env.buildSources bd).2 with _ | e2
  · rcases hpk : Package.PackageOp env { p with BuildRoot := bd } with ⟨r2, tr2, p2⟩
    rcases r2 with e3 | out <;> simp
  · simp

/-- Witness for C9: with one resource whose staging write fails, the build
result is identical to the all-writes-succeed run and the build script
still runs. -/
theorem build_ignores_resource_write_errors_witness :
    Package.Build envOk wFail pkgRes = Package.Build envOk wNone pkgRes ∧
    Event.runBuildScript "/tmp/build" ∈ (Package.Build envOk wFail pkgRes).2.1 :=
  build_ignores_resource_write_errors envOk wFail wNone pkgRes [] "/tmp/build"
    rfl rfl rfl rfl

/-! Helper lemmas: closed forms of `buildStaged` on its remaining paths
and of `Cleanup`, plus a membership criterion for `removedIn`. -/

lemma buildStaged_dl_fail (env : Env) (p1 : Package) (tr : List Event) (e : Err)
    (hdl : downloadLoop env p1 0 p1.Resources = (tr, some e)) :
    Package.buildStaged env p1 = (some e, tr ++ [deferRemove env p1.BuildRoot], p1) := by
  unfold Package.buildStaged
  rw [hdl]

lemma buildStaged_buildSources_fail (env : Env) (p1 : Package) (tr : List Event) (e : Err)
    (hdl : downloadLoop env p1 0 p1.Resources = (tr, none))
    (hbs : (env.buildSources p1.BuildRoot).2 = some e) :
    Package.buildStaged env p1 =
      (some e, tr ++ [Event.runBuildScript p1.BuildRoot, deferRemove env p1.BuildRoot], p1) := by
  unfold Package.buildStaged
  dsimp only
  rw [hdl, hbs]

lemma buildStaged_package_fail (env : Env) (p1 : Package) (tr tr2 : List Event) (p2 : Package)
    (e : Err)
    (hdl : downloadLoop env p1 0 p1.Resources = (tr, none))
    (hbs : (env.buildSources p1.BuildRoot).2 = none)
    (hpk : Package.PackageOp env p1 = (.error e, tr2, p2)) :
    Package.buildStaged env p1 =
      (some e,
        tr ++ [Event.runBuildScript p1.BuildRoot] ++ tr2 ++ [deferRemove env p1.BuildRoot],
        p2) := by
  unfold Package.buildStaged
  dsimp only
  rw [hdl, hbs, hpk]

lemma buildStaged_success (env : Env) (p1 : Package) (tr tr2 : List Event) (p2 : Package)
    (out : String)
    (hdl : downloadLoop env p1 0 p1.Resources = (tr, none))
    (hbs : (env.buildSources p1.BuildRoot).2 = none)
    (hpk : Package.PackageOp env p1 = (.ok out, tr2, p2)) :
    Package.buildStaged env p1 =
      ((Package.Cleanup env p2).1,
        tr ++ [Event.runBuildScript p1.BuildRoot] ++ tr2 ++ (Package.Cleanup env p2).2
          ++ [deferRemove env p1.BuildRoot],
        p2) := by
  unfold Package.buildStaged
  dsimp only
  rw [hdl, hbs, hpk]

lemma cleanup_ok (env : Env) (p2 : Package)
    (hra : env.removeAll p2.BuildRoot = none) (hrs : env.removeAll p2.ScriptRoot = none) :
    Package.Cleanup env p2 =
      (none, [Event.removeAll p2.BuildRoot true, Event.removeAll p2.ScriptRoot true]) := by
  unfold Package.Cleanup
  rw [hra, hrs]

lemma cleanup_fail_buildroot (env : Env) (p2 : Package) (e : Err)
    (hra : env.removeAll p2.BuildRoot = some e) :
    Package.Cleanup env p2 = (some e, [Event.removeAll p2.BuildRoot false]) := by
  unfold Package.Cleanup
  rw [hra]

lemma cleanup_fail_scriptroot (env : Env) (p2 : Package) (e : Err)
    (hra : env.removeAll p2.BuildRoot = none) (hrs : env.removeAll p2.ScriptRoot = some e) :
    Package.Cleanup env p2 =
      (some e, [Event.removeAll p2.BuildRoot true, Event.removeAll p2.ScriptRoot false]) := by
  unfold Package.Cleanup
  rw [hra, hrs]

lemma removedIn_of_mem (tr : List Event) (d : String)
    (h : Event.removeAll d true ∈ tr) : removedIn tr d = true := by
  unfold removedIn
  rw [List.any_eq_true]
  exact ⟨_, h, by simp⟩

/-- C5: when staging, the build script and packaging all succeed but a
workspace removal fails afterwards, `Build()` reports that removal error
as the overall result — the successfully packaged build is reported
failed. -/
theorem build_reports_cleanup_failure_after_success (env : Env)
    (w : String → String → Option Err) (p : Package) (files : List DirEntry) (bd : String)
    (out : String) (tr tr2 : List Event) (p2 : Package)
    (h1 : env.readDir p.OutputRoot = .ok files)
    (h2 : matchedIn env (p.Name ++ "-" ++ p.Version ++ "-" ++ p.Iteration ++ ".*") files = false)
    (h3 : env.tempDirBuild ("hammer-" ++ p.Name) = .ok bd)
    (hdl : downloadLoop env { p with BuildRoot := bd } 0 p.Resources = (tr, none))
    (hbs : (env.buildSources bd).2 = none)
    (hpk : Package.PackageOp env { p with BuildRoot := bd } = (.ok out, tr2, p2)) :
    (∀ e, env.removeAll p2.BuildRoot = some e → (Package.Build env w p).1 = some e) ∧
    (∀ e, env.removeAll p2.BuildRoot = none → env.removeAll p2.ScriptRoot = some e →
      (Package.Build env w p).1 = some e) := by
  rw [build_past_conflict env w p files bd h1 h2 h3]
  rw [buildStaged_success env { p with BuildRoot := bd } tr tr2 p2 out hdl hbs hpk]
  constructor
  · intro e hra
    rw [cleanup_fail_buildroot env p2 e hra]
  · intro e hra hrs
    rw [cleanup_fail_scriptroot env p2 e hra hrs]

/-- Witness for C5: with packaging succeeding and `os.RemoveAll` failing,
the build is reported failed with the removal error. -/
theorem build_reports_cleanup_failure_after_success_witness :
    (Package.Build envRmFail wNone pkg0).1 = some (Err.sys "rm failed") :=
  (build_reports_cleanup_failure_after_success envRmFail wNone pkg0 [] "/tmp/build" ""
      [] [Event.tempDir "hammer-scripts-foo",
        Event.invokeBackend ["-s", "dir", "-t", "rpm", "-p", "/out", "--name", "foo",
          "--version", "1.0", "--iteration", "1"]]
      { pkg0 with BuildRoot := "/tmp/build", ScriptRoot := "/tmp/scripts" }
      rfl rfl rfl rfl rfl rfl).1 (Err.sys "rm failed") rfl

/-- C2 counterexample: a build that proceeds past the conflict check (the
output directory lists successfully and holds no conflict) and fails only
because the backend exits non-zero returns an error with the script
workspace `/tmp/scripts` still never removed — the claim that both
workspaces are removed on every outcome is false on this input. -/
theorem build_error_leaves_script_root :
    envFpmFail.readDir pkg0.OutputRoot = .ok [] ∧
    matchedIn envFpmFail
      (pkg0.Name ++ "-" ++ pkg0.Version ++ "-" ++ pkg0.Iteration ++ ".*") [] = false ∧
    (Package.Build envFpmFail wNone pkg0).1 = some Err.nonZeroExit ∧
    (Package.Build envFpmFail wNone pkg0).2.2.ScriptRoot = "/tmp/scripts" ∧
    removedIn (Package.Build envFpmFail wNone pkg0).2.1 "/tmp/scripts" = false :=
  ⟨rfl, rfl, rfl, rfl, rfl⟩

/-- C2 (amended): after any `Build()` that proceeds past the conflict
check and returns success, both the build workspace and the script
workspace have been removed; on error returns the source only attempts a
bare `os.Remove` of the build root and never removes the script root. -/
theorem build_success_removes_workspaces (env : Env)
    (w : String → String → Option Err) (p : Package) (files : List DirEntry)
    (h1 : env.readDir p.OutputRoot = .ok files)
    (h2 : matchedIn env (p.Name ++ "-" ++ p.Version ++ "-" ++ p.Iteration ++ ".*") files = false)
    (hnone : (Package.Build env w p).1 = none) :
    removedIn (Package.Build env w p).2.1 (Package.Build env w p).2.2.BuildRoot = true ∧
    removedIn (Package.Build env w p).2.1 (Package.Build env w p).2.2.ScriptRoot = true := by
  rcases h3 : env.tempDirBuild ("hammer-" ++ p.Name) with e0 | bd
  · have hb : Package.Build env w p = (some e0, [deferRemove env ""], p) := by
      unfold Package.Build
      rw [h1]
      simp only [h2, Bool.false_eq_true, if_false, h3]
    rw [hb] at hnone
    exact absurd hnone (by simp)
  · rw [build_past_conflict env w p files bd h1 h2 h3] at hnone ⊢
    rcases hdl : downloadLoop env { p with BuildRoot := bd } 0 p.Resources with ⟨tr, res⟩
    rcases res with _ | e1
    · rcases hbs : (env.buildSources bd).2 with _ | e2
      · rcases hpk : Package.PackageOp env { p with BuildRoot := bd } with ⟨r2, tr2, p2⟩
        rcases r2 with e3 | out
        · rw [buildStaged_package_fail env { p with BuildRoot := bd } tr tr2 p2 e3
            hdl hbs hpk] at hnone
          exact absurd hnone (by simp)
        · rw [buildStaged_success env { p with BuildRoot := bd } tr tr2 p2 out
            hdl hbs hpk] at hnone ⊢
          have hcl1 : (Package.Cleanup env p2).1 = none := hnone
          rcases hra : env.removeAll p2.BuildRoot with _ | e4
          · rcases hrs : env.removeAll p2.ScriptRoot with _ | e5
            · rw [cleanup_ok env p2 hra hrs]
              constructor
              · exact removedIn_of_mem _ _ (by simp)
              · exact removedIn_of_mem _ _ (by simp)
            · rw [cleanup_fail_scriptroot env p2 e5 hra hrs] at hcl1
              exact absurd hcl1 (by simp)
          · rw [cleanup_fail_buildroot env p2 e4 hra] at hcl1
            exact absurd hcl1 (by simp)
      · rw [buildStaged_buildSources_fail env { p with BuildRoot := bd } tr e2 hdl hbs] at hnone
        exact absurd hnone (by simp)
    · rw [buildStaged_dl_fail env { p with BuildRoot := bd } tr e1 hdl] at hnone
      exact absurd hnone (by simp)

/-- Witness for the amended C2: an all-successful build removes both
workspaces. -/
theorem build_success_removes_workspaces_witness :
    removedIn (Package.Build envOk wNone pkg0).2.1
      (Package.Build envOk wNone pkg0).2.2.BuildRoot = true ∧
    removedIn (Package.Build envOk wNone pkg0).2.1
      (Package.Build envOk wNone pkg0).2.2.ScriptRoot = true :=
  build_success_removes_workspaces envOk wNone pkg0 [] rfl rfl rfl

end Hammer
